import Mathlib

/-!
Shallow embedding of the DolphinUpdater program
(`dolphin_updater/__main__.py`) together with theorems settling the
specification claims about it.

Conventions:
* Python byte strings and text strings are modelled as `List Char` or
  `String`; every byte the program inspects is ASCII.
* Python exceptions are modelled with `Except PyErr`; each constructor
  names the Python exception class raised at the corresponding site.
* HTML documents are modelled by exactly the queries the program performs
  on them (anchor lists, table rows), not by a full DOM.
-/

/-- Python exception classes that the program's code paths can raise.
`parseError` is the spec's taxonomy label for missing HTML structure; the
code itself never raises it. -/
inductive PyErr where
  | typeError
  | attributeError
  | zeroDivisionError
  | notADirectoryError
  | parseError
deriving DecidableEq

/-- `Builds.is_outdated`: `return self.latest_version != self.installed_version`
(plain Python string inequality on the two stored version strings). -/
def is_outdated (latest_version installed_version : String) : Bool :=
  latest_version != installed_version

/-- `download_report_hook(count, block_size, total_size)` computes
`percent = int(count * block_size * 100 / total_size)`.  Python's `/`
raises `ZeroDivisionError` when `total_size` is `0`; otherwise `int()`
truncates the quotient towards zero, modelled by `Int.tdiv` (exact for
every quotient the float division represents exactly; the claims only
concern the `total_size = 0` case). -/
def download_report_hook (count block_size total_size : Int) : Except PyErr Int :=
  if total_size = 0 then Except.error PyErr.zeroDivisionError
  else Except.ok (Int.tdiv (count * block_size * 100) total_size)

/-- Python's `str.endswith`: suffix test on the character sequence. -/
def pyEndsWith (s suffixStr : String) : Bool :=
  suffixStr.toList.isSuffixOf s.toList

/-- Observable outcome of `main()` up to the point where the orchestrator
would take over: the process exit code and whether any network access was
performed.  The two validation branches call `sys.exit(1)` before any
network request; only the fall-through into
`update_dolphin_if_necessary` fetches a listing. -/
structure MainObs where
  exitCode : Nat
  networkAccessed : Bool
deriving DecidableEq

/-- `main()` path validation: exit 1 if the argument does not end with
`Dolphin.exe`, exit 1 if no file exists at the path, otherwise proceed to
the orchestrator (which performs the network fetch). -/
def mainRun (path : String) (pathExists : Bool) : MainObs :=
  if !pyEndsWith path "Dolphin.exe" then ⟨1, false⟩
  else if !pathExists then ⟨1, false⟩
  else ⟨0, true⟩

/-- Anchored match of the regex `[4|5]\.0-[0-9]+` at the head of `s`:
a character of the class `[4|5]` (which contains `'4'`, `'|'` and `'5'`),
the literal `.0-`, then a maximal nonempty digit run (the trailing `[0-9]+`
is greedy and nothing follows it, so the leftmost match takes the maximal
run).  Returns the matched text, `re.Match.group()`. -/
def matchAt45 (s : List Char) : Option (List Char) :=
  match s with
  | c :: '.' :: '0' :: '-' :: rest =>
    if (c == '4' || c == '|' || c == '5')
        && !(rest.takeWhile Char.isDigit).isEmpty then
      some (c :: '.' :: '0' :: '-' :: rest.takeWhile Char.isDigit)
    else none
  | _ => none

/-- `re.search(b"[4|5]\.0-[0-9]+", content)`: leftmost match of the
pattern, scanning start positions left to right. -/
def reSearch45 : List Char → Option (List Char)
  | [] => none
  | c :: cs =>
    match matchAt45 (c :: cs) with
    | some m => some m
    | none => reSearch45 cs

/-- `DolphinBuilds.get_installed_version`: reads the binary contents,
searches for `[4|5]\.0-[0-9]+`, and calls `.group().decode()` on the
result.  When the search finds nothing `re.search` returns `None` and the
`.group()` attribute access raises `AttributeError`. -/
def DolphinBuilds.get_installed_version (content : List Char) : Except PyErr String :=
  match reSearch45 content with
  | some m => Except.ok (String.mk m)
  | none => Except.error PyErr.attributeError

/-- Shape of a `[4|5]\.0-[0-9]+` match: a leading character from the
class, the literal `.0-`, and a nonempty run of digits. -/
def shape45 : List Char → Bool
  | c :: '.' :: '0' :: '-' :: ds =>
    (c == '4' || c == '|' || c == '5') && !ds.isEmpty && ds.all Char.isDigit
  | _ => false

/-- `m` is the leftmost match of the installed-version pattern in
`content`: it matches at some start position and no earlier start
position matches. -/
def IsFirstMatch45 (content m : List Char) : Prop :=
  ∃ i, matchAt45 (content.drop i) = some m
    ∧ ∀ j, j < i → matchAt45 (content.drop j) = none

/-- Anchored match of the byte pattern the spec describes, with the
leading byte restricted to `4` or `5` as the spec's words state
(pattern `(4 or 5).0-digits`); kept for comparison with the code's
`matchAt45`, whose character class also contains the bar character. -/
def matchAt45Spec (s : List Char) : Option (List Char) :=
  match s with
  | c :: '.' :: '0' :: '-' :: rest =>
    if (c == '4' || c == '5')
        && !(rest.takeWhile Char.isDigit).isEmpty then
      some (c :: '.' :: '0' :: '-' :: rest.takeWhile Char.isDigit)
    else none
  | _ => none

/-- Leftmost match of the spec-described installed-version pattern. -/
def reSearch45Spec : List Char → Option (List Char)
  | [] => none
  | c :: cs =>
    match matchAt45Spec (c :: cs) with
    | some m => some m
    | none => reSearch45Spec cs

/-- An HTML anchor as the program queries it: its visible text and its
optional `href` attribute (`a.get("href")` yields `None` when absent). -/
structure Anchor where
  text : String
  href : Option String
deriving DecidableEq

/-- One `tr.download` row of the Mainline version table, reduced to the
query the program performs on it: the first anchor with class `win` in
its `download-links` cell, if any. -/
structure MDownloadRow where
  winAnchor : Option Anchor
deriving DecidableEq

/-- The Mainline `table.versions-list`, reduced to the queries performed
on it: the version-link texts of its `tr.infos` rows, in document order,
and its `tr.download` rows. -/
structure MTable where
  infos : List String
  downloads : List MDownloadRow
deriving DecidableEq

/-- `DolphinBuilds.get_latest_download`: scan the `tr.download` rows; on
the first row whose `download-links` cell holds an `a.win` anchor, return
that anchor's `href` attribute (which is itself `None` when absent).
Falling off the loop returns `None`. -/
def DolphinBuilds.get_latest_download : List MDownloadRow → Option String
  | [] => none
  | r :: rs =>
    match r.winAnchor with
    | some a => a.href
    | none => DolphinBuilds.get_latest_download rs

/-- Python's substring membership `needle in hay` on strings: `needle`
occurs contiguously in `hay`. -/
def pyInStr : List Char → List Char → Bool
  | needle, [] => needle.isEmpty
  | needle, c :: cs => needle.isPrefixOf (c :: cs) || pyInStr needle cs

/-- `DolphinBuilds.get_latest_version`: scan the `tr.infos` rows and
return the first version text contained in `self.latest_download`
(Python substring membership `in`).  When `latest_download` is `None`
the first membership test `text in None` raises `TypeError`; an empty
row list falls off the loop and returns `None`. -/
def DolphinBuilds.get_latest_version : List String → Option String → Except PyErr (Option String)
  | [], _ => Except.ok none
  | _ :: _, none => Except.error PyErr.typeError
  | v :: vs, some url =>
    if pyInStr v.toList url.toList then Except.ok (some v)
    else DolphinBuilds.get_latest_version vs (some url)

/-- The fields `Builds.__init__` stores on a `DolphinBuilds` object, in
assignment order. -/
structure DolphinState where
  latest_download : Option String
  latest_version : Option String
  installed_version : String
deriving DecidableEq

/-- `Builds.__init__` for the Mainline variant: fetch the version table
once, then derive `latest_download`, `latest_version` (from the same
`self.table` and the just-stored `self.latest_download`) and
`installed_version` (from the binary contents), propagating the first
raised exception. -/
def mkDolphinBuilds (t : MTable) (content : List Char) : Except PyErr DolphinState :=
  match DolphinBuilds.get_latest_version t.infos (DolphinBuilds.get_latest_download t.downloads) with
  | Except.error e => Except.error e
  | Except.ok lv =>
    match DolphinBuilds.get_installed_version content with
    | Except.error e => Except.error e
    | Except.ok iv =>
      Except.ok ⟨DolphinBuilds.get_latest_download t.downloads, lv, iv⟩

/-- The lookahead `(?=\([^)]+\)\.x64\.7z)` of the Community Fork filename
pattern, tested at a position: a literal opening parenthesis, a maximal
nonempty run of characters other than the closing parenthesis, the
closing parenthesis, then the literal `.x64.7z`. -/
def lookaheadIsh (s : List Char) : Bool :=
  match s with
  | '(' :: rest =>
    let inner := rest.takeWhile (fun c => c != ')')
    !inner.isEmpty && (')' :: ".x64.7z".toList).isPrefixOf (rest.drop inner.length)
  | _ => false

/-- Anchored match of `[0-9]+(?=\([^)]+\)\.x64\.7z)` at the head of `s`.
The digit run is greedy; backtracking to a shorter run cannot succeed
because the lookahead must then start at a digit while it requires an
opening parenthesis, so the maximal run is the only candidate.  Returns
the captured digit run, `re.Match.group()`. -/
def matchIshAt (s : List Char) : Option (List Char) :=
  match s.takeWhile Char.isDigit with
  | [] => none
  | ds => if lookaheadIsh (s.drop ds.length) then some ds else none

/-- `re.search("[0-9]+(?=\([^)]+\)\.x64\.7z)", text)`: leftmost match. -/
def reSearchIsh : List Char → Option (List Char)
  | [] => none
  | c :: cs =>
    match matchIshAt (c :: cs) with
    | some m => some m
    | none => reSearchIsh cs

/-- The loop condition of both Community Fork getters: the anchor's
visible text matches the filename pattern. -/
def anchorMatches (a : Anchor) : Bool :=
  (reSearchIsh a.text.toList).isSome

/-- `IshiirukaBuilds.get_latest_download`: scan the `file-link` anchors;
on the first anchor whose text matches the filename pattern, return
`file.get("href")[:-1] + "1"`.  When the anchor has no `href` attribute,
`get` yields `None` and slicing `None[:-1]` raises `TypeError`. -/
def IshiirukaBuilds.get_latest_download : List Anchor → Except PyErr (Option String)
  | [] => Except.ok none
  | a :: as =>
    if anchorMatches a then
      match a.href with
      | none => Except.error PyErr.typeError
      | some h => Except.ok (some (String.mk (h.toList.dropLast ++ ['1'])))
    else IshiirukaBuilds.get_latest_download as

/-- Progress of the recursive Community Fork listing fetch: either a
fetch attempt found the gallery-view container (a list of file-link
anchors), or every attempt made so far came back without it and the
function is still inside a recursive retry. -/
inductive FetchState where
  | found : List Anchor → FetchState
  | retrying : FetchState
deriving DecidableEq

/-- `IshiirukaBuilds.fetch_version_table`: fetch the page; if the
gallery-view container is present return it, otherwise print a message
and recursively retry the whole fetch.  `outcomes n` is the container
yielded by the `n`-th fetch (`none` when absent).  The `fuel` argument
counts evaluation steps: `retrying` with fuel `f` means the code has
performed `f` fetches, found the container absent each time, and is
still recursing — the source recursion itself carries no bound. -/
def IshiirukaBuilds.fetch_version_table (outcomes : Nat → Option (List Anchor)) :
    Nat → Nat → FetchState
  | _, 0 => FetchState.retrying
  | attempt, fuel + 1 =>
    match outcomes attempt with
    | some t => FetchState.found t
    | none => IshiirukaBuilds.fetch_version_table outcomes (attempt + 1) fuel

/-- The fetch never returns: for every evaluation budget it is still
inside the recursive retry. -/
def ishFetchDiverges (outcomes : Nat → Option (List Anchor)) : Prop :=
  ∀ fuel, IshiirukaBuilds.fetch_version_table outcomes 0 fuel = FetchState.retrying

/-- A filesystem entry: a regular file with its contents, or a directory
with its named children in `os.listdir` order. -/
inductive FsEntry where
  | file : String → FsEntry
  | dir : List (String × FsEntry) → FsEntry

/-- Effect of `shutil.rmtree`/`os.remove` followed by `shutil.move` on
the installation directory, which is modelled as a map from entry names
to entries: the named slot now holds the moved entry, every other slot is
untouched. -/
def setEntry (d : String → Option FsEntry) (name : String) (e : FsEntry) :
    String → Option FsEntry :=
  fun m => if m = name then some e else d m

/-- The move loop of `update_dolphin`: for each top-level entry of the
resolved extraction folder, delete any same-named entry of the
installation directory and move the new entry into place. -/
def moveFiles (d : String → Option FsEntry) : List (String × FsEntry) → (String → Option FsEntry)
  | [] => d
  | (n, e) :: rest => moveFiles (setEntry d n e) rest

/-- `update_dolphin(directory, extracted_folder)`: when
`os.listdir(extracted_folder)` is exactly `["Dolphin-x64"]` descend into
that folder (listing a regular file instead raises
`NotADirectoryError`), then run the move loop over the resolved entries.
The final removal of the emptied extraction tree does not touch the
installation directory and is not part of the returned map. -/
def update_dolphin (directory : String → Option FsEntry)
    (extracted : List (String × FsEntry)) : Except PyErr (String → Option FsEntry) :=
  if extracted.map Prod.fst = ["Dolphin-x64"] then
    match extracted with
    | [(_, FsEntry.dir inner)] => Except.ok (moveFiles directory inner)
    | _ => Except.error PyErr.notADirectoryError
  else
    Except.ok (moveFiles directory extracted)

/-! ## Helper lemmas -/

/-- Every element kept by `takeWhile` satisfies the predicate. -/
theorem takeWhile_all_sat {α : Type} (p : α → Bool) (l : List α) :
    (l.takeWhile p).all p = true := by
  induction l with
  | nil => rfl
  | cons a l ih =>
    by_cases h : p a
    · simp [List.takeWhile_cons, h, ih]
    · simp [List.takeWhile_cons, h]

/-- A successful anchored match of the installed-version pattern has the
matched shape: class character, literal `.0-`, nonempty digit run. -/
theorem matchAt45_shape (s m : List Char) (h : matchAt45 s = some m) :
    shape45 m = true := by
  unfold matchAt45 at h
  split at h
  · rename_i c rest
    split at h
    · rename_i hcond
      cases h
      rw [Bool.and_eq_true] at hcond
      obtain ⟨hA, hB⟩ := hcond
      simp [shape45, hA, hB, takeWhile_all_sat]
    · exact absurd h (by simp)
  · exact absurd h (by simp)

/-- `reSearch45` returns the leftmost match: the result matches at some
start position and no earlier start position matches. -/
theorem reSearch45_leftmost (s m : List Char) (h : reSearch45 s = some m) :
    IsFirstMatch45 s m := by
  induction s with
  | nil => simp [reSearch45] at h
  | cons c cs ih =>
    unfold reSearch45 at h
    cases hm : matchAt45 (c :: cs) with
    | some m2 =>
      rw [hm] at h
      cases h
      exact ⟨0, by simpa using hm, fun j hj => absurd hj (by omega)⟩
    | none =>
      rw [hm] at h
      obtain ⟨i, h1, h2⟩ := ih h
      refine ⟨i + 1, by simpa using h1, ?_⟩
      intro j hj
      cases j with
      | zero => simpa using hm
      | succ j => simpa using h2 j (by omega)

/-! ## Claim theorems -/

/-- C1: `Builds.is_outdated` returns `true` iff the latest and installed
version strings are not character-for-character identical; it is plain
string inequality, with no semantic-version comparison. -/
theorem is_outdated_iff_char_mismatch (latest installed : String) :
    is_outdated latest installed = true ↔ latest.toList ≠ installed.toList := by
  simp only [is_outdated, bne_iff_ne]
  constructor
  · intro h hc
    exact h (String.ext hc)
  · intro h hc
    exact h (congrArg String.toList hc)

/-- C4 counterexample: with a server-declared total size of `0` the
progress hook does not complete; the expression
`count * block_size * 100 / total_size` raises `ZeroDivisionError`, so
the claim that `download_report_hook` completes for `total_size = 0` is
false. -/
theorem download_report_hook_zero_total_not_ok :
    ¬ ∃ p : Int, download_report_hook 100 1024 0 = Except.ok p := by
  intro hp
  obtain ⟨p, hp⟩ := hp
  simp [download_report_hook] at hp

/-- C4 (amended): the progress hook raises `ZeroDivisionError` exactly
when the server-declared total size is `0`; for every nonzero total it
completes, reporting the truncated integer percentage. -/
theorem download_report_hook_error_iff_zero_total (count block_size total_size : Int) :
    download_report_hook count block_size total_size = Except.error PyErr.zeroDivisionError
      ↔ total_size = 0 := by
  unfold download_report_hook
  split
  · simp_all
  · simp_all

/-- C8: the entry point exits with status 1 before any network access
when the path argument does not end with `Dolphin.exe`, and likewise
exits with status 1 when the path does not exist on the filesystem. -/
theorem main_path_validation_exits_before_network (path : String) (pathExists : Bool) :
    (pyEndsWith path "Dolphin.exe" = false → mainRun path pathExists = ⟨1, false⟩)
    ∧ (pathExists = false → mainRun path pathExists = ⟨1, false⟩) := by
  unfold mainRun
  constructor
  · intro h
    simp [h]
  · intro h
    cases hp : pyEndsWith path "Dolphin.exe" <;> simp [h, hp]

/-- C8 witness: the spec's scenario path does not end with `Dolphin.exe`
and is rejected with exit status 1 and no network access, and an
existing-name check failure is likewise rejected. -/
theorem main_path_validation_witness :
    pyEndsWith "C:\\emu\\Foo.exe" "Dolphin.exe" = false
    ∧ mainRun "C:\\emu\\Foo.exe" true = ⟨1, false⟩
    ∧ mainRun "C:\\emu\\Dolphin.exe" false = ⟨1, false⟩ :=
  ⟨by decide, (main_path_validation_exits_before_network "C:\\emu\\Foo.exe" true).1 (by decide),
    (main_path_validation_exits_before_network "C:\\emu\\Dolphin.exe" false).2 rfl⟩

/-- C9: the code's character class `[4|5]` also accepts the bar
character: on a binary containing `|.0-123` before any `4.0-` or `5.0-`
marker, `DolphinBuilds.get_installed_version` returns a version string
beginning with the bar character — a shape outside the spec's
`(4 or 5).0-digits` description, whose own matcher instead finds the
later `5.0-9` occurrence. -/
theorem get_installed_version_pipe_example :
    DolphinBuilds.get_installed_version "ab|.0-123cd5.0-9".toList = Except.ok "|.0-123"
    ∧ "|.0-123".toList.head? = some '|'
    ∧ reSearch45Spec "ab|.0-123cd5.0-9".toList = some "5.0-9".toList := by
  refine ⟨rfl, rfl, rfl⟩

/-- C5 counterexample: on the binary contents `|.0-7` the spec-described
pattern `(4 or 5).0-digits` has no match, so the claim requires the
method to fail with `NotFoundError`; the code's class `[4|5]` matches the
bar character and the method instead returns `|.0-7`. -/
theorem get_installed_version_accepts_nonspec_leading_byte :
    reSearch45Spec "|.0-7".toList = none
    ∧ DolphinBuilds.get_installed_version "|.0-7".toList = Except.ok "|.0-7" := by
  refine ⟨rfl, rfl⟩

/-- C5 (amended): `DolphinBuilds.get_installed_version` returns the first
(leftmost) match of the byte pattern `[4|5]\.0-[0-9]+` — leading byte
`4`, `|` or `5`, then `.0-` and a nonempty digit run — decoded as text,
and fails (an unhandled `AttributeError` from `None.group()`, the code
never raising the spec's `NotFoundError` class) when the binary contains
no such match. -/
theorem get_installed_version_characterization (content : List Char) :
    (DolphinBuilds.get_installed_version content = Except.error PyErr.attributeError
      ↔ reSearch45 content = none)
    ∧ ∀ v : String, DolphinBuilds.get_installed_version content = Except.ok v →
        shape45 v.toList = true ∧ IsFirstMatch45 content v.toList := by
  constructor
  · unfold DolphinBuilds.get_installed_version
    cases h : reSearch45 content <;> simp
  · intro v hv
    unfold DolphinBuilds.get_installed_version at hv
    cases h : reSearch45 content with
    | none => rw [h] at hv; exact absurd hv (by simp)
    | some m =>
      rw [h] at hv
      have hvm : String.mk m = v := by simpa using hv
      subst hvm
      obtain ⟨i, h1, h2⟩ := reSearch45_leftmost content m h
      exact ⟨matchAt45_shape _ _ h1, ⟨i, h1, h2⟩⟩

/-- C5 witness: a concrete binary whose installed version is extracted,
has the matched shape, and is the leftmost match. -/
theorem get_installed_version_characterization_witness :
    DolphinBuilds.get_installed_version "x4.0-12".toList = Except.ok "4.0-12"
    ∧ (shape45 "4.0-12".toList = true ∧ IsFirstMatch45 "x4.0-12".toList "4.0-12".toList) :=
  ⟨rfl, (get_installed_version_characterization "x4.0-12".toList).2 "4.0-12" rfl⟩

/-- A Mainline version row is returned by `get_latest_version` only when
its text passed the substring-membership test against the download URL. -/
theorem get_latest_version_substring (infos : List String) (url v : String)
    (h : DolphinBuilds.get_latest_version infos (some url) = Except.ok (some v)) :
    pyInStr v.toList url.toList = true := by
  induction infos with
  | nil => simp [DolphinBuilds.get_latest_version] at h
  | cons w ws ih =>
    unfold DolphinBuilds.get_latest_version at h
    split at h
    · rename_i hin
      have hwv : w = v := by simpa using h
      subst hwv
      exact hin
    · exact ih h

/-- C6: both fields of a Mainline Build Descriptor derive from the single
listing fetched at construction — `latest_download` is exactly
`get_latest_download` of that table — and whenever construction yields a
version string and a download URL, the version string is contained in
the URL (the substring-membership join of `get_latest_version`). -/
theorem dolphin_builds_version_url_same_listing (t : MTable) (content : List Char)
    (st : DolphinState) (hmk : mkDolphinBuilds t content = Except.ok st)
    (v url : String) (hv : st.latest_version = some v)
    (hu : st.latest_download = some url) :
    st.latest_download = DolphinBuilds.get_latest_download t.downloads
    ∧ pyInStr v.toList url.toList = true := by
  unfold mkDolphinBuilds at hmk
  cases hlv : DolphinBuilds.get_latest_version t.infos
      (DolphinBuilds.get_latest_download t.downloads) with
  | error e => rw [hlv] at hmk; exact absurd hmk (by simp)
  | ok lv =>
    rw [hlv] at hmk
    cases hiv : DolphinBuilds.get_installed_version content with
    | error e => rw [hiv] at hmk; exact absurd hmk (by simp)
    | ok iv =>
      rw [hiv] at hmk
      have hst : st = ⟨DolphinBuilds.get_latest_download t.downloads, lv, iv⟩ := by
        cases hmk
        rfl
      subst hst
      refine ⟨rfl, ?_⟩
      have hld : DolphinBuilds.get_latest_download t.downloads = some url := hu
      have hlv2 : lv = some v := hv
      rw [hld, hlv2] at hlv
      exact get_latest_version_substring t.infos url v hlv

/-- C6 witness: a concrete one-row listing for which construction
succeeds; the download URL comes from the same table and contains the
version string. -/
theorem dolphin_builds_version_url_same_listing_witness :
    mkDolphinBuilds ⟨["5.0-123"], [⟨some ⟨"Windows x64", some "https://x/5.0-123-x64.7z"⟩⟩]⟩
        "ab5.0-123cd".toList
      = Except.ok ⟨some "https://x/5.0-123-x64.7z", some "5.0-123", "5.0-123"⟩
    ∧ (some "https://x/5.0-123-x64.7z" : Option String)
        = DolphinBuilds.get_latest_download [⟨some ⟨"Windows x64", some "https://x/5.0-123-x64.7z"⟩⟩]
    ∧ pyInStr "5.0-123".toList "https://x/5.0-123-x64.7z".toList = true :=
  ⟨rfl,
    (dolphin_builds_version_url_same_listing
      ⟨["5.0-123"], [⟨some ⟨"Windows x64", some "https://x/5.0-123-x64.7z"⟩⟩]⟩
      "ab5.0-123cd".toList
      ⟨some "https://x/5.0-123-x64.7z", some "5.0-123", "5.0-123"⟩
      rfl "5.0-123" "https://x/5.0-123-x64.7z" rfl rfl).1,
    (dolphin_builds_version_url_same_listing
      ⟨["5.0-123"], [⟨some ⟨"Windows x64", some "https://x/5.0-123-x64.7z"⟩⟩]⟩
      "ab5.0-123cd".toList
      ⟨some "https://x/5.0-123-x64.7z", some "5.0-123", "5.0-123"⟩
      rfl "5.0-123" "https://x/5.0-123-x64.7z" rfl rfl).2⟩

/-- When no download row holds a `win` anchor the scan falls off the loop
and returns `None`. -/
theorem get_latest_download_none_of_no_win (rows : List MDownloadRow)
    (h : ∀ r ∈ rows, r.winAnchor = none) :
    DolphinBuilds.get_latest_download rows = none := by
  induction rows with
  | nil => rfl
  | cons r rs ih =>
    have hr : r.winAnchor = none := h r (by simp)
    unfold DolphinBuilds.get_latest_download
    rw [hr]
    exact ih fun x hx => h x (by simp [hx])

/-- C10: when the Mainline listing's download rows hold no `win` anchor,
`get_latest_download` returns `None` without raising, and construction
of the `DolphinBuilds` object (with at least one version row present)
then fails inside `get_latest_version` with the `TypeError` raised by
testing substring membership in `None` — not with the spec's
`ParseError` taxonomy. -/
theorem missing_win_anchor_gives_none_then_type_error (t : MTable) (content : List Char)
    (hwin : ∀ r ∈ t.downloads, r.winAnchor = none) (hrow : t.infos ≠ []) :
    DolphinBuilds.get_latest_download t.downloads = none
    ∧ mkDolphinBuilds t content = Except.error PyErr.typeError := by
  have hld := get_latest_download_none_of_no_win t.downloads hwin
  refine ⟨hld, ?_⟩
  unfold mkDolphinBuilds
  rw [hld]
  cases hI : t.infos with
  | nil => exact absurd hI hrow
  | cons a as => simp [DolphinBuilds.get_latest_version]

/-- C10 witness: a concrete listing with one version row and one download
row lacking a `win` anchor. -/
theorem missing_win_anchor_witness :
    (∀ r ∈ ([⟨none⟩] : List MDownloadRow), r.winAnchor = none)
    ∧ (["5.0-123"] : List String) ≠ []
    ∧ DolphinBuilds.get_latest_download [⟨none⟩] = none
    ∧ mkDolphinBuilds ⟨["5.0-123"], [⟨none⟩]⟩ "x".toList = Except.error PyErr.typeError :=
  ⟨by decide, by decide,
    (missing_win_anchor_gives_none_then_type_error ⟨["5.0-123"], [⟨none⟩]⟩ "x".toList
      (by decide) (by decide)).1,
    (missing_win_anchor_gives_none_then_type_error ⟨["5.0-123"], [⟨none⟩]⟩ "x".toList
      (by decide) (by decide)).2⟩

/-- C7: when the Community Fork listing's first filename-matching anchor
has href `h` (nonempty), `get_latest_download` returns `h` with exactly
the final character replaced by `'1'`: the result keeps `h`'s length,
keeps every preceding character (`dropLast`) unchanged, and ends in
`'1'`. -/
theorem ishiiruka_download_final_char_rewrite (anchors : List Anchor) (a : Anchor)
    (h : String) (hfind : anchors.find? anchorMatches = some a)
    (hh : a.href = some h) (hne : h.toList ≠ []) :
    IshiirukaBuilds.get_latest_download anchors
      = Except.ok (some (String.mk (h.toList.dropLast ++ ['1'])))
    ∧ (h.toList.dropLast ++ ['1']).length = h.toList.length
    ∧ (h.toList.dropLast ++ ['1']).dropLast = h.toList.dropLast
    ∧ (h.toList.dropLast ++ ['1']).getLast? = some '1' := by
  refine ⟨?_, ?_, ?_, ?_⟩
  · induction anchors with
    | nil => simp [List.find?] at hfind
    | cons b bs ih =>
      cases hb : anchorMatches b with
      | true =>
        rw [List.find?_cons_of_pos _ hb] at hfind
        have hba : b = a := by simpa using hfind
        subst hba
        unfold IshiirukaBuilds.get_latest_download
        rw [hb, hh]
        simp
      | false =>
        rw [List.find?_cons_of_neg _ (by simp [hb])] at hfind
        unfold IshiirukaBuilds.get_latest_download
        rw [hb]
        exact ih hfind
  · have hpos : 0 < h.toList.length := List.length_pos.mpr hne
    simp only [List.length_append, List.length_dropLast, List.length_cons, List.length_nil]
    omega
  · exact List.dropLast_concat
  · simp

/-- C7 witness: a concrete listing whose second anchor is the first
filename match; its href's trailing `0` is rewritten to `1`. -/
theorem ishiiruka_download_final_char_rewrite_witness :
    ([⟨"readme.txt", some "u"⟩, ⟨"123(Ishiiruka).x64.7z", some "https://db/x?dl=0"⟩] : List Anchor).find?
        anchorMatches = some ⟨"123(Ishiiruka).x64.7z", some "https://db/x?dl=0"⟩
    ∧ IshiirukaBuilds.get_latest_download
        [⟨"readme.txt", some "u"⟩, ⟨"123(Ishiiruka).x64.7z", some "https://db/x?dl=0"⟩]
      = Except.ok (some (String.mk ("https://db/x?dl=0".toList.dropLast ++ ['1']))) :=
  ⟨rfl,
    (ishiiruka_download_final_char_rewrite
      [⟨"readme.txt", some "u"⟩, ⟨"123(Ishiiruka).x64.7z", some "https://db/x?dl=0"⟩]
      ⟨"123(Ishiiruka).x64.7z", some "https://db/x?dl=0"⟩
      "https://db/x?dl=0" rfl rfl (by decide)).1⟩

/-- On the persistently-absent outcome sequence the fetch is still inside
the recursive retry after every number of attempts. -/
theorem fetch_version_table_absent_retrying (attempt fuel : Nat) :
    IshiirukaBuilds.fetch_version_table (fun _ => none) attempt fuel = FetchState.retrying := by
  induction fuel generalizing attempt with
  | zero => rfl
  | succ fuel ih =>
    unfold IshiirukaBuilds.fetch_version_table
    exact ih (attempt + 1)

/-- C3 counterexample: the recursion of
`IshiirukaBuilds.fetch_version_table` carries no retry cap at all.  On
the outcome sequence whose gallery-view container is persistently absent
the fetch never terminates — it neither returns a table nor fails with
`NetworkError` after three (or any number of) retries — refuting the
claimed bounded retry and the claimed termination for every outcome
sequence. -/
theorem fetch_version_table_diverges_on_absent_container :
    ishFetchDiverges fun _ => none :=
  fun fuel => fetch_version_table_absent_retrying 0 fuel

/-- C3 (amended): the Community Fork listing fetch retries without
bound: after `fuel` fetch attempts it is still inside the recursive
retry exactly when every attempt so far found the gallery-view container
absent, and it returns as soon as some attempt yields the container.  In
particular, on a persistently-absent sequence it never terminates and no
`NetworkError` is ever produced. -/
theorem fetch_version_table_retry_characterization
    (outcomes : Nat → Option (List Anchor)) (attempt fuel : Nat) :
    IshiirukaBuilds.fetch_version_table outcomes attempt fuel = FetchState.retrying
      ↔ ∀ k, k < fuel → outcomes (attempt + k) = none := by
  induction fuel generalizing attempt with
  | zero => simp [IshiirukaBuilds.fetch_version_table]
  | succ fuel ih =>
    unfold IshiirukaBuilds.fetch_version_table
    cases ho : outcomes attempt with
    | some t =>
      constructor
      · intro hcontra
        exact absurd hcontra (by simp)
      · intro hall
        have h0 := hall 0 (by omega)
        rw [Nat.add_zero] at h0
        rw [h0] at ho
        exact absurd ho (by simp)
    | none =>
      rw [ih (attempt + 1)]
      constructor
      · intro hr k hk
        cases k with
        | zero => simpa using ho
        | succ k =>
          have hk2 : attempt + (k + 1) = attempt + 1 + k := by omega
          rw [hk2]
          exact hr k (by omega)
      · intro hall k hk
        have hk2 : attempt + 1 + k = attempt + (k + 1) := by omega
        rw [hk2]
        exact hall (k + 1) (by omega)

/-- A key absent from an association list's key column is not found by
`List.lookup`. -/
theorem lookup_none_of_not_mem_keys {β : Type} (l : List (String × β)) (a : String)
    (h : a ∉ l.map Prod.fst) : List.lookup a l = none := by
  induction l with
  | nil => rfl
  | cons p l ih =>
    obtain ⟨k, b⟩ := p
    simp only [List.map_cons, List.mem_cons] at h
    push_neg at h
    obtain ⟨h1, h2⟩ := h
    have hk : (a == k) = false := beq_eq_false_iff_ne.mpr h1
    simp [List.lookup, hk, ih h2]

/-- The move loop merges the source entries over the destination map:
after the loop, a name holds its (unique) source entry when the source
names it, and its previous destination entry otherwise. -/
theorem moveFiles_lookup (src : List (String × FsEntry)) (d : String → Option FsEntry)
    (name : String) (hnd : (src.map Prod.fst).Nodup) :
    moveFiles d src name = ((List.lookup name src).orElse fun _ => d name) := by
  induction src generalizing d with
  | nil => simp [moveFiles, List.lookup, Option.orElse]
  | cons p src ih =>
    obtain ⟨k, e⟩ := p
    simp only [List.map_cons, List.nodup_cons] at hnd
    obtain ⟨hk, hnd⟩ := hnd
    unfold moveFiles
    rw [ih (setEntry d k e) hnd]
    by_cases hn : name = k
    · subst hn
      rw [lookup_none_of_not_mem_keys src name hk]
      simp [List.lookup, setEntry, Option.orElse]
    · have hbeq : (name == k) = false := beq_eq_false_iff_ne.mpr hn
      simp [List.lookup, hbeq, setEntry, hn]

/-- C2: installing an extraction folder whose top-level content is
exactly the single folder `Dolphin-x64` succeeds, and the resulting
installation directory is that inner folder's contents merged over the
pre-existing entries: every archive entry replaces any same-named
pre-existing entry, and every pre-existing entry not named in the
archive is unchanged. -/
theorem update_dolphin_wrapped_archive_merges (directory : String → Option FsEntry)
    (inner : List (String × FsEntry)) (hnd : (inner.map Prod.fst).Nodup) (name : String) :
    ∃ result, update_dolphin directory [("Dolphin-x64", FsEntry.dir inner)] = Except.ok result
      ∧ result name = ((List.lookup name inner).orElse fun _ => directory name) := by
  refine ⟨moveFiles directory inner, ?_, moveFiles_lookup inner directory name hnd⟩
  rfl

/-- C2 witness: a concrete wrapped archive over a concrete installation
directory; the overwritten entry is observed through the merge. -/
theorem update_dolphin_wrapped_archive_merges_witness :
    (([("Dolphin.exe", FsEntry.file "new"), ("Sys", FsEntry.dir [])].map Prod.fst).Nodup)
    ∧ ∃ result,
        update_dolphin
          (fun n => if n = "Dolphin.exe" then some (FsEntry.file "old")
            else if n = "portable.txt" then some (FsEntry.file "keep") else none)
          [("Dolphin-x64", FsEntry.dir
            [("Dolphin.exe", FsEntry.file "new"), ("Sys", FsEntry.dir [])])]
          = Except.ok result
        ∧ result "Dolphin.exe"
          = ((List.lookup "Dolphin.exe"
              [("Dolphin.exe", FsEntry.file "new"), ("Sys", FsEntry.dir [])]).orElse
            fun _ =>
              (fun n => if n = "Dolphin.exe" then some (FsEntry.file "old")
                else if n = "portable.txt" then some (FsEntry.file "keep") else none)
              "Dolphin.exe") :=
  ⟨by decide,
    update_dolphin_wrapped_archive_merges
      (fun n => if n = "Dolphin.exe" then some (FsEntry.file "old")
        else if n = "portable.txt" then some (FsEntry.file "keep") else none)
      [("Dolphin.exe", FsEntry.file "new"), ("Sys", FsEntry.dir [])]
      (by decide) "Dolphin.exe"⟩
